import Mathlib

/-!
Verification of the pagination/retry engine and the action poller of a
typed client library for a cloud-infrastructure REST API.

The embedding is shallow: the `async` generator `paginate` of
`src/pagination.ts` is modelled as a fuel-indexed recursive function over an
abstract page fetcher `fetch : Nat → Except FetchError (PageResponse T)`
(call index ↦ outcome of `client.get(path, {...params, page})`), collecting
the yielded items, the `page` parameter of every fetch issued, and the
backoff waits performed.  `ActionsApi.poll` of `src/resources/actions.ts`
is modelled the same way over an abstract record fetcher and an abstract
elapsed-wall-clock reading at each loop check.
-/

namespace Hetzner

/-- Pagination metadata (`interface Pagination`, src/pagination.ts). -/
structure Pagination where
  page : Nat
  per_page : Nat
  previous_page : Option Nat
  next_page : Option Nat
  last_page : Nat
  total_entries : Nat
deriving DecidableEq, Repr

/-- One page response: `response[key]` (`none` when the key is absent from
the response) together with `response.meta.pagination`. -/
structure PageResponse (T : Type) where
  items : Option (List T)
  pagination : Pagination
deriving DecidableEq, Repr

/-- Fetch failures: `RateLimitError` (carrying `retryAfter`, seconds)
versus every other error thrown by `client.get` (carrying an
HTTP-status-like code), as distinguished by the `catch` in `paginate`. -/
inductive FetchError where
  | rateLimit (retryAfter : Nat)
  | other (code : Nat)
deriving DecidableEq, Repr

/-- The mutable loop variables of `paginate`:
`let page = 1; let hasMore = true; let retryCount = 0`. -/
structure LoopState where
  page : Nat
  hasMore : Bool
  retryCount : Nat
deriving DecidableEq, Repr

/-- `const maxRetries = 3` in `paginate` (src/pagination.ts). -/
def maxRetries : Nat := 3

/-- `calculateBackoff` (src/utils.ts):
`Math.max(retryAfter * 1000, 100 * Math.pow(2, retryCount))`. -/
def calculateBackoff (retryAfter retryCount : Nat) : Nat :=
  Nat.max (retryAfter * 1000) (100 * 2 ^ retryCount)

/-- The success branch of the `try` in `paginate`'s loop body:
`hasMore = pagination.next_page !== null`,
`page = pagination.next_page ?? page + 1`, `retryCount = 0`. -/
def successUpdate (pagination : Pagination) (s : LoopState) : LoopState :=
  { page := pagination.next_page.getD (s.page + 1)
    hasMore := pagination.next_page.isSome
    retryCount := 0 }

/-- Observable outcome of one full run of `paginate`: the items yielded in
order, the `page` parameter of every `client.get` call in order, the
backoff waits (`await delay(backoffMs)`) in order, and the error finally
thrown (`none` when the generator completed normally). -/
structure RunResult (T : Type) where
  items : List T
  calls : List Nat
  delays : List Nat
  err : Option FetchError
deriving DecidableEq, Repr

/-- The `while (hasMore)` loop of `paginate` (src/pagination.ts), with
`fetch c` the outcome of the `c`-th `client.get` call of the run and
`fuel` an upper bound on the number of loop iterations (`none` = fuel
exhausted before the loop finished). -/
def paginateAux {T : Type} (fetch : Nat → Except FetchError (PageResponse T)) :
    Nat → LoopState → Nat → Option (RunResult T)
  | _, s, 0 =>
    if s.hasMore then none else some ⟨[], [], [], none⟩
  | c, s, fuel + 1 =>
    if s.hasMore then
      match fetch c with
      | Except.ok resp =>
        let pageItems := resp.items.getD []
        (paginateAux fetch (c + 1) (successUpdate resp.pagination s) fuel).map
          (fun r => ⟨pageItems ++ r.items, s.page :: r.calls, r.delays, r.err⟩)
      | Except.error (FetchError.rateLimit ra) =>
        if s.retryCount < maxRetries then
          let backoffMs := Nat.max (ra * 1000) (100 * 2 ^ (s.retryCount + 1))
          (paginateAux fetch (c + 1)
              { s with retryCount := s.retryCount + 1 } fuel).map
            (fun r => ⟨r.items, s.page :: r.calls, backoffMs :: r.delays, r.err⟩)
        else some ⟨[], [s.page], [], some (FetchError.rateLimit ra)⟩
      | Except.error (FetchError.other code) =>
        some ⟨[], [s.page], [], some (FetchError.other code)⟩
    else some ⟨[], [], [], none⟩

/-- A full `paginate` run from the initial state
`page = 1, hasMore = true, retryCount = 0`. -/
def paginate {T : Type} (fetch : Nat → Except FetchError (PageResponse T))
    (fuel : Nat) : Option (RunResult T) :=
  paginateAux fetch 0 ⟨1, true, 0⟩ fuel

/-- `fetchAllPages` (src/pagination.ts): drain `paginate`; if the generator
throws, the promise rejects with that error and the items collected so far
are lost. -/
def fetchAllPages {T : Type} (fetch : Nat → Except FetchError (PageResponse T))
    (fuel : Nat) : Option (Except FetchError (List T)) :=
  (paginate fetch fuel).map fun r =>
    match r.err with
    | some e => Except.error e
    | none => Except.ok r.items

/-- `type ActionStatus = "running" | "success" | "error"`
(src/resources/actions.ts). -/
inductive ActionStatus where
  | running
  | success
  | error
deriving DecidableEq, Repr

/-- `interface ActionErrorInfo` (src/resources/actions.ts). -/
structure ActionErrorInfo where
  code : String
  message : String
deriving DecidableEq, Repr

/-- `interface ActionResource` (src/resources/actions.ts). -/
structure ActionResource where
  id : Nat
  type : String
deriving DecidableEq, Repr

/-- `interface Action` (src/resources/actions.ts). -/
structure Action where
  id : Nat
  command : String
  status : ActionStatus
  progress : Nat
  started : String
  finished : Option String
  resources : List ActionResource
  error : ActionErrorInfo
deriving DecidableEq, Repr

/-- Outcome of `ActionsApi.poll`: the returned record, the thrown
`ActionError` (with the failed record and its message), or the thrown
timeout `Error`. -/
inductive PollOutcome where
  | ok (action : Action)
  | actionError (action : Action) (message : String)
  | timeout (message : String)
deriving DecidableEq, Repr

/-- The `while (action.status === "running")` loop of `ActionsApi.poll`
(src/resources/actions.ts): `get k` is the record returned by the `k`-th
`this.get(id)` call, `elapsed k` the value of `Date.now() - startTime` at
the timeout check that follows it, and `fuel` bounds the number of checks
(`none` = fuel exhausted with the action still running). -/
def pollAux (get : Nat → Action) (elapsed : Nat → Nat) (timeoutMs id : Nat) :
    Nat → Nat → Option PollOutcome
  | _, 0 => none
  | k, fuel + 1 =>
    match (get k).status with
    | ActionStatus.running =>
      if elapsed k > timeoutMs then
        some (PollOutcome.timeout
          ("Action " ++ toString id ++ " timed out after " ++
            toString timeoutMs ++ "ms"))
      else pollAux get elapsed timeoutMs id (k + 1) fuel
    | ActionStatus.error =>
      some (PollOutcome.actionError (get k)
        ("Action failed: " ++ (get k).error.code ++ " - " ++
          (get k).error.message))
    | ActionStatus.success => some (PollOutcome.ok (get k))

/-- `ActionsApi.poll` from its first `this.get(id)` call. -/
def poll (get : Nat → Action) (elapsed : Nat → Nat) (timeoutMs id fuel : Nat) :
    Option PollOutcome :=
  pollAux get elapsed timeoutMs id 0 fuel

/-- C3: the backoff calculator is a pure deterministic function: for every
suggested delay `s` (seconds) and every 1-indexed attempt number `n ≥ 1` it
returns `max (s * 1000) (100 * 2 ^ n)` milliseconds; in particular
`backoff 0 1 = 200`, `backoff 0 2 = 400`, `backoff 0 3 = 800`,
`backoff 5 1 = 5000`, `backoff 10 1 = 10000`. -/
theorem calculateBackoff_formula_and_values :
    (∀ s n : Nat, 1 ≤ n →
      calculateBackoff s n = Nat.max (s * 1000) (100 * 2 ^ n)) ∧
    calculateBackoff 0 1 = 200 ∧ calculateBackoff 0 2 = 400 ∧
    calculateBackoff 0 3 = 800 ∧ calculateBackoff 5 1 = 5000 ∧
    calculateBackoff 10 1 = 10000 :=
  ⟨fun _ _ _ => rfl, by decide, by decide, by decide, by decide, by decide⟩

/-- Witness for C3: the formula evaluated at `s = 0`, `n = 1`. -/
theorem calculateBackoff_formula_witness :
    calculateBackoff 0 1 = Nat.max (0 * 1000) (100 * 2 ^ 1) :=
  calculateBackoff_formula_and_values.1 0 1 (by decide)

/-- Counterexample to C4: at attempt 1 with a zero suggested delay the
backoff is 200 ms, not the 100 ms the claim states. -/
theorem calculateBackoff_zero_one_ne_100 : calculateBackoff 0 1 ≠ 100 := by
  decide

/-- C4 (amended): for a zero (or absent, defaulted-to-zero) suggested
delay, the backoff calculator returns 200 ms at attempt 1, 400 ms at
attempt 2, 800 ms at attempt 3 and 1600 ms at attempt 4. -/
theorem calculateBackoff_zero_delay_values :
    calculateBackoff 0 1 = 200 ∧ calculateBackoff 0 2 = 400 ∧
    calculateBackoff 0 3 = 800 ∧ calculateBackoff 0 4 = 1600 := by
  decide

/-- Counterexample to C7: on a successful response whose `next_page` is
null, the loop sets `page = pagination.next_page ?? page + 1`, so the page
counter moves from 3 to 4 instead of staying unchanged. -/
theorem successUpdate_null_next_page_changes_page :
    (successUpdate ⟨3, 25, some 2, none, 3, 75⟩ ⟨3, true, 2⟩).page ≠ 3 := by
  decide

/-- C7 (amended): after every successful page fetch, `hasMore` is set to
`next_page ≠ null`, `retryCount` is reset to 0, and the page counter is set
to `next_page` when `next_page` is non-null but incremented by 1 when
`next_page` is null (irrelevant, since `hasMore` is then false). -/
theorem successUpdate_spec (pg : Pagination) (s : LoopState) :
    (successUpdate pg s).retryCount = 0 ∧
    (successUpdate pg s).hasMore = pg.next_page.isSome ∧
    (∀ q, pg.next_page = some q → (successUpdate pg s).page = q) ∧
    (pg.next_page = none → (successUpdate pg s).page = s.page + 1) := by
  refine ⟨rfl, rfl, fun q hq => ?_, fun h => ?_⟩
  · simp [successUpdate, hq]
  · simp [successUpdate, h]

/-- Witness for C7 (amended), at a response with `next_page = some 2` and at
one with `next_page = none`. -/
theorem successUpdate_spec_witness :
    (successUpdate ⟨1, 25, none, some 2, 3, 75⟩ ⟨1, true, 2⟩).page = 2 ∧
    (successUpdate ⟨3, 25, some 2, none, 3, 75⟩ ⟨3, true, 2⟩).page = 3 + 1 :=
  ⟨(successUpdate_spec ⟨1, 25, none, some 2, 3, 75⟩ ⟨1, true, 2⟩).2.2.1 2 rfl,
   (successUpdate_spec ⟨3, 25, some 2, none, 3, 75⟩ ⟨3, true, 2⟩).2.2.2 rfl⟩

/-- C6: a fetch failure that is not the rate-limit variant is propagated to
the caller immediately — one fetch, zero retries, no backoff wait,
regardless of the current retry count — and the run terminates. -/
theorem paginateAux_other_error_immediate {T : Type}
    (fetch : Nat → Except FetchError (PageResponse T)) (code c p rc fuel : Nat)
    (h : fetch c = Except.error (FetchError.other code)) :
    paginateAux fetch c ⟨p, true, rc⟩ (fuel + 1) =
      some ⟨[], [p], [], some (FetchError.other code)⟩ := by
  simp [paginateAux, h]

/-- Witness for C6: a not-found-style failure (code 404) on the very first
fetch, at retry count 2. -/
theorem paginateAux_other_error_immediate_witness :
    paginateAux (T := Nat) (fun _ => Except.error (FetchError.other 404))
        0 ⟨1, true, 2⟩ 5 =
      some ⟨[], [1], [], some (FetchError.other 404)⟩ := by
  have h := paginateAux_other_error_immediate
    (T := Nat) (fun _ => Except.error (FetchError.other 404)) 404 0 1 2 4 rfl
  simpa using h

/-- C2: against a fetcher that signals rate-limit on every attempt,
`paginate` performs exactly `maxRetries = 3` retries of the same page —
4 fetch attempts in total, all with page parameter 1 — yields zero items,
waits the three computed backoffs, and then propagates the rate-limit
error unchanged, terminating the run. -/
theorem paginate_rate_limit_exhausts_retries {T : Type} (ra : Nat)
    (fetch : Nat → Except FetchError (PageResponse T)) (fuel : Nat)
    (hfuel : 4 ≤ fuel)
    (hfetch : ∀ i, fetch i = Except.error (FetchError.rateLimit ra)) :
    paginate fetch fuel =
      some ⟨[], [1, 1, 1, 1],
        [Nat.max (ra * 1000) 200, Nat.max (ra * 1000) 400,
          Nat.max (ra * 1000) 800],
        some (FetchError.rateLimit ra)⟩ := by
  obtain ⟨k, rfl⟩ : ∃ k, fuel = k + 4 := ⟨fuel - 4, by omega⟩
  norm_num [paginate, paginateAux, hfetch, maxRetries]

/-- Witness for C2: a fetcher that is always rate-limited with a zero
suggested delay, run with fuel 4. -/
theorem paginate_rate_limit_exhausts_retries_witness :
    paginate (T := Nat) (fun _ => Except.error (FetchError.rateLimit 0)) 4 =
      some ⟨[], [1, 1, 1, 1], [200, 400, 800],
        some (FetchError.rateLimit 0)⟩ := by
  have h := paginate_rate_limit_exhausts_retries (T := Nat) 0
    (fun _ => Except.error (FetchError.rateLimit 0)) 4 (by decide)
    (fun _ => rfl)
  simpa using h

/-- C8: a successful page response whose item list is absent or empty
contributes zero items and no failure, and the run continues from the
state advanced via the response's pagination metadata. -/
theorem paginateAux_empty_page {T : Type}
    (fetch : Nat → Except FetchError (PageResponse T)) (resp : PageResponse T)
    (c p rc fuel : Nat)
    (hfetch : fetch c = Except.ok resp)
    (hempty : resp.items = none ∨ resp.items = some []) :
    paginateAux fetch c ⟨p, true, rc⟩ (fuel + 1) =
      (paginateAux fetch (c + 1)
          (successUpdate resp.pagination ⟨p, true, rc⟩) fuel).map
        (fun r => ⟨r.items, p :: r.calls, r.delays, r.err⟩) := by
  rcases hempty with h | h <;> simp [paginateAux, hfetch, h]

/-- Witness for C8: a single page whose item list is absent
(`response[key]` undefined) and whose `next_page` is null. -/
theorem paginateAux_empty_page_witness :
    paginateAux (T := Nat)
        (fun _ => Except.ok ⟨none, ⟨1, 25, none, none, 1, 0⟩⟩)
        0 ⟨1, true, 0⟩ 2 =
      (paginateAux (T := Nat)
          (fun _ => Except.ok ⟨none, ⟨1, 25, none, none, 1, 0⟩⟩)
          1 (successUpdate ⟨1, 25, none, none, 1, 0⟩ ⟨1, true, 0⟩) 1).map
        (fun r => ⟨r.items, 1 :: r.calls, r.delays, r.err⟩) := by
  have h := paginateAux_empty_page (T := Nat)
    (fun _ => Except.ok ⟨none, ⟨1, 25, none, none, 1, 0⟩⟩)
    ⟨none, ⟨1, 25, none, none, 1, 0⟩⟩ 0 1 0 1 rfl (Or.inl rfl)
  simpa using h

/-- Once `hasMore` is false the loop exits without any further fetch. -/
theorem paginateAux_done {T : Type}
    (fetch : Nat → Except FetchError (PageResponse T)) (c p rc fuel : Nat) :
    paginateAux fetch c ⟨p, false, rc⟩ fuel = some ⟨[], [], [], none⟩ := by
  cases fuel <;> simp [paginateAux]

/-- A run over a correctly chained failure-free page sequence: if the `n`
pages served at call indices `c, c+1, …` carry page numbers
`p, p+1, …, p+n-1` with `next_page` chaining each page to its successor
and null on the last, the run yields the concatenation of the page item
lists in order, issues exactly one fetch per page in ascending page order,
performs no backoff wait and throws nothing. -/
theorem paginateAux_chain {T : Type}
    (fetch : Nat → Except FetchError (PageResponse T)) :
    ∀ (n : Nat) (ps : Nat → PageResponse T) (c p fuel : Nat),
      0 < n → n ≤ fuel →
      (∀ i, i < n → fetch (c + i) = Except.ok (ps i)) →
      (∀ i, i < n → (ps i).pagination.next_page =
        if i + 1 < n then some (p + i + 1) else none) →
      paginateAux fetch c ⟨p, true, 0⟩ fuel =
        some ⟨((List.range n).map fun i => (ps i).items.getD []).flatten,
              List.range' p n, [], none⟩ := by
  intro n
  induction n with
  | zero => intro ps c p fuel hn; omega
  | succ m ih =>
    intro ps c p fuel _ hfuel hfetch hchain
    obtain ⟨f, rfl⟩ : ∃ f, fuel = f + 1 := ⟨fuel - 1, by omega⟩
    have h0 : fetch c = Except.ok (ps 0) := by
      simpa using hfetch 0 (Nat.succ_pos m)
    cases m with
    | zero =>
      have hnp : (ps 0).pagination.next_page = none := by
        simpa using hchain 0 (by omega)
      simp [paginateAux, h0, successUpdate, hnp, paginateAux_done,
        List.range'_succ, show List.range 1 = [0] from rfl]
    | succ m' =>
      have hnp : (ps 0).pagination.next_page = some (p + 1) := by
        have h := hchain 0 (by omega)
        rw [if_pos (by omega)] at h
        simpa using h
      have hfetch' : ∀ i, i < m' + 1 → fetch (c + 1 + i) =
          Except.ok (ps (i + 1)) := by
        intro i hi
        have h := hfetch (i + 1) (by omega)
        have e : c + (i + 1) = c + 1 + i := by omega
        rwa [e] at h
      have hchain' : ∀ i, i < m' + 1 → (ps (i + 1)).pagination.next_page =
          if i + 1 < m' + 1 then some (p + 1 + i + 1) else none := by
        intro i hi
        have h := hchain (i + 1) (by omega)
        by_cases hc : i + 1 < m' + 1
        · rw [if_pos (by omega : i + 1 + 1 < m' + 1 + 1)] at h
          rw [h, if_pos hc]
          congr 1
          omega
        · rw [if_neg (by omega : ¬ i + 1 + 1 < m' + 1 + 1)] at h
          rw [h, if_neg hc]
      have hrec := ih (fun i => ps (i + 1)) (c + 1) (p + 1) f
        (Nat.succ_pos m') (by omega) hfetch' hchain'
      simp only [paginateAux, h0, successUpdate, hnp, Option.getD_some,
        Option.isSome_some, if_true]
      rw [hrec]
      have hfun : ((fun i => (ps (i + 1)).items.getD []) ∘ Nat.succ) =
          ((fun i => (ps i).items.getD []) ∘ Nat.succ ∘ Nat.succ) := rfl
      simp [List.range_succ_eq_map, List.range'_succ, List.map_map, hfun]

/-- C1: over any failure-free page sequence in which every non-last page's
`next_page` equals `page + 1` and the last page's `next_page` is null,
`fetchAllPages` returns the concatenation of the page item lists in
ascending page order with intra-page order preserved, and the run issues
exactly one fetch per page (`page` parameters `1, 2, …, n`, each once). -/
theorem fetchAllPages_concat {T : Type} (n : Nat) (ps : Nat → PageResponse T)
    (fetch : Nat → Except FetchError (PageResponse T)) (fuel : Nat)
    (hn : 0 < n) (hfuel : n ≤ fuel)
    (hfetch : ∀ i, i < n → fetch i = Except.ok (ps i))
    (hchain : ∀ i, i < n → (ps i).pagination.next_page =
      if i + 1 < n then some (i + 2) else none) :
    fetchAllPages fetch fuel =
      some (Except.ok
        (((List.range n).map fun i => (ps i).items.getD []).flatten)) ∧
    paginate fetch fuel =
      some ⟨((List.range n).map fun i => (ps i).items.getD []).flatten,
        List.range' 1 n, [], none⟩ := by
  have hp := paginateAux_chain fetch n ps 0 1 fuel hn hfuel
    (fun i hi => by simpa using hfetch i hi)
    (fun i hi => by
      have h := hchain i hi
      rw [h]
      by_cases hc : i + 1 < n
      · rw [if_pos hc, if_pos hc]
        congr 1
        omega
      · rw [if_neg hc, if_neg hc])
  have hp' : paginate fetch fuel =
      some ⟨((List.range n).map fun i => (ps i).items.getD []).flatten,
        List.range' 1 n, [], none⟩ := hp
  exact ⟨by simp [fetchAllPages, hp'], hp'⟩

/-- Witness for C1: two pages, items `[10, 11]` then `[20]`, chained
`next_page = 2` then `next_page = null`. -/
theorem fetchAllPages_concat_witness :
    fetchAllPages (T := Nat)
        (fun i => if i = 0
          then Except.ok ⟨some [10, 11], ⟨1, 25, none, some 2, 2, 3⟩⟩
          else Except.ok ⟨some [20], ⟨2, 25, some 1, none, 2, 3⟩⟩) 2 =
      some (Except.ok [10, 11, 20]) := by
  have h := fetchAllPages_concat (T := Nat) 2
    (fun i => if i = 0
      then ⟨some [10, 11], ⟨1, 25, none, some 2, 2, 3⟩⟩
      else ⟨some [20], ⟨2, 25, some 1, none, 2, 3⟩⟩)
    (fun i => if i = 0
      then Except.ok ⟨some [10, 11], ⟨1, 25, none, some 2, 2, 3⟩⟩
      else Except.ok ⟨some [20], ⟨2, 25, some 1, none, 2, 3⟩⟩)
    2 (by decide) (by decide)
    (fun i hi => by interval_cases i <;> rfl)
    (fun i hi => by interval_cases i <;> rfl)
  simpa [List.range_succ] using h.1

/-- C5: if every served response satisfies the pagination-metadata
invariant — `next_page` null iff `page = last_page`, and `next_page`, when
non-null, equal to `page + 1` — with a common `last_page = L ≥ 1`, then a
`paginate` run terminates after fetching exactly pages `1, …, L`: at most
`last_page` fetches, none after the null-`next_page` page, no error. -/
theorem paginate_bounded_by_last_page {T : Type} (L : Nat)
    (ps : Nat → PageResponse T)
    (fetch : Nat → Except FetchError (PageResponse T)) (fuel : Nat)
    (hL : 0 < L) (hfuel : L ≤ fuel)
    (hfetch : ∀ i, fetch i = Except.ok (ps i))
    (hpage : ∀ i, (ps i).pagination.page = i + 1)
    (hlast : ∀ i, (ps i).pagination.last_page = L)
    (hiff : ∀ i, (ps i).pagination.next_page = none ↔
      (ps i).pagination.page = (ps i).pagination.last_page)
    (hnext : ∀ i q, (ps i).pagination.next_page = some q →
      q = (ps i).pagination.page + 1) :
    paginate fetch fuel =
      some ⟨((List.range L).map fun i => (ps i).items.getD []).flatten,
        List.range' 1 L, [], none⟩ ∧
    (List.range' 1 L).length ≤ L := by
  have hchain : ∀ i, i < L → (ps i).pagination.next_page =
      if i + 1 < L then some (1 + i + 1) else none := by
    intro i hi
    by_cases hc : i + 1 < L
    · rw [if_pos hc]
      cases hnp : (ps i).pagination.next_page with
      | none =>
        exfalso
        have h := (hiff i).mp hnp
        rw [hpage i, hlast i] at h
        omega
      | some q =>
        have hq := hnext i q hnp
        rw [hpage i] at hq
        rw [hq]
        congr 1
        omega
    · rw [if_neg hc]
      refine (hiff i).mpr ?_
      rw [hpage i, hlast i]
      omega
  have hp := paginateAux_chain fetch L ps 0 1 fuel hL hfuel
    (fun i _ => by simpa using hfetch i) hchain
  exact ⟨hp, by simp [List.length_range']⟩

/-- Witness for C5: a single-page collection (`last_page = 1`,
`next_page = null` on page 1), over a response family satisfying the
invariant at every index. -/
theorem paginate_bounded_by_last_page_witness :
    paginate (T := Nat)
        (fun i => Except.ok ⟨some [5],
          ⟨i + 1, 25, none, if i = 0 then none else some (i + 2), 1, 1⟩⟩) 1 =
      some ⟨[5], [1], [], none⟩ := by
  have h := paginate_bounded_by_last_page (T := Nat) 1
    (fun i => ⟨some [5],
      ⟨i + 1, 25, none, if i = 0 then none else some (i + 2), 1, 1⟩⟩)
    (fun i => Except.ok ⟨some [5],
      ⟨i + 1, 25, none, if i = 0 then none else some (i + 2), 1, 1⟩⟩)
    1 (by decide) (by decide) (fun i => rfl) (fun i => rfl) (fun i => rfl)
    (fun i => by cases i <;> simp)
    (fun i q hq => by
      cases i with
      | zero => simp at hq
      | succ k =>
        simp at hq ⊢
        omega)
  simpa [List.range_succ] using h.1

/-- While the fetched record stays "running" and the elapsed time stays
within `timeoutMs`, the poll loop keeps advancing to the next fetch. -/
theorem pollAux_advance (get : Nat → Action) (elapsed : Nat → Nat)
    (timeoutMs id : Nat) :
    ∀ (j k fuel : Nat),
      (∀ m, m < j → (get (k + m)).status = ActionStatus.running ∧
        elapsed (k + m) ≤ timeoutMs) →
      pollAux get elapsed timeoutMs id k (j + fuel) =
        pollAux get elapsed timeoutMs id (k + j) fuel := by
  intro j
  induction j with
  | zero => intro k fuel _; simp
  | succ n ih =>
    intro k fuel h
    have h0 := h 0 (Nat.succ_pos n)
    have hr : (get k).status = ActionStatus.running := by simpa using h0.1
    have hle : ¬ elapsed k > timeoutMs := by
      have := h0.2
      simp at this
      omega
    have e : n + 1 + fuel = (n + fuel) + 1 := by omega
    rw [e]
    have hstep : pollAux get elapsed timeoutMs id k ((n + fuel) + 1) =
        pollAux get elapsed timeoutMs id (k + 1) (n + fuel) := by
      simp [pollAux, hr, hle]
    rw [hstep]
    have hrec := ih (k + 1) fuel (fun m hm => by
      have hm' := h (m + 1) (by omega)
      have e2 : k + (m + 1) = k + 1 + m := by omega
      rwa [e2] at hm')
    rw [hrec]
    have e3 : k + 1 + n = k + (n + 1) := by omega
    rw [e3]

/-- C9: when every fetched record stays "running", `poll` rejects with a
timeout error exactly at the first check whose elapsed wall-clock time
strictly exceeds `timeoutMs` — and at no earlier check does the loop
produce any outcome. -/
theorem poll_timeout_exactly_when_elapsed_exceeds (get : Nat → Action)
    (elapsed : Nat → Nat) (timeoutMs id n : Nat)
    (hrun : ∀ k, (get k).status = ActionStatus.running)
    (hex : timeoutMs < elapsed n)
    (hbefore : ∀ m, m < n → elapsed m ≤ timeoutMs) :
    (∀ fuel, n < fuel → poll get elapsed timeoutMs id fuel =
      some (PollOutcome.timeout
        ("Action " ++ toString id ++ " timed out after " ++
          toString timeoutMs ++ "ms"))) ∧
    (∀ fuel, fuel ≤ n → poll get elapsed timeoutMs id fuel = none) := by
  constructor
  · intro fuel hf
    obtain ⟨f, rfl⟩ : ∃ f, fuel = n + (f + 1) := ⟨fuel - n - 1, by omega⟩
    have ha := pollAux_advance get elapsed timeoutMs id n 0 (f + 1)
      (fun m hm => ⟨by simpa using hrun m, by simpa using hbefore m hm⟩)
    have hgoal : poll get elapsed timeoutMs id (n + (f + 1)) =
        pollAux get elapsed timeoutMs id (0 + n) (f + 1) := ha
    rw [hgoal]
    simp [pollAux, hrun n, hex]
  · intro fuel hf
    have ha := pollAux_advance get elapsed timeoutMs id fuel 0 0
      (fun m hm => ⟨by simpa using hrun m,
        by simpa using hbefore m (by omega)⟩)
    exact ha

/-- Witness for C9: a stub that stays "running" forever and a clock that
reads 0, 100, 200, 300 ms at successive checks, with `timeoutMs = 250`:
with enough fuel the poll times out (at the fourth check), and with fuel
for only the first three checks no outcome has been produced yet. -/
theorem poll_timeout_exactly_when_elapsed_exceeds_witness :
    poll (fun _ => ⟨7, "create_server", ActionStatus.running, 50, "t0",
        none, [], ⟨"", ""⟩⟩)
      (fun k => k * 100) 250 7 4 =
      some (PollOutcome.timeout "Action 7 timed out after 250ms") ∧
    poll (fun _ => ⟨7, "create_server", ActionStatus.running, 50, "t0",
        none, [], ⟨"", ""⟩⟩)
      (fun k => k * 100) 250 7 3 = none := by
  have h := poll_timeout_exactly_when_elapsed_exceeds
    (fun _ => ⟨7, "create_server", ActionStatus.running, 50, "t0",
      none, [], ⟨"", ""⟩⟩)
    (fun k => k * 100) 250 7 3 (fun _ => rfl) (by decide)
    (fun m hm => by show m * 100 ≤ 250; omega)
  exact ⟨by simpa using h.1 4 (by decide), by simpa using h.2 3 (by decide)⟩

/-- C10: when, after any number of "running" fetches within the timeout,
a fetched record has status "error", `poll` rejects with an `ActionError`
that carries that full record and whose message contains the record's
error code and error message; the loop performs no further fetch. -/
theorem poll_error_carries_code_and_message (get : Nat → Action)
    (elapsed : Nat → Nat) (timeoutMs id n : Nat)
    (hrun : ∀ m, m < n → (get m).status = ActionStatus.running)
    (hbefore : ∀ m, m < n → elapsed m ≤ timeoutMs)
    (herr : (get n).status = ActionStatus.error) :
    ∀ fuel, n < fuel →
      poll get elapsed timeoutMs id fuel =
        some (PollOutcome.actionError (get n)
          ("Action failed: " ++ (get n).error.code ++ " - " ++
            (get n).error.message)) ∧
      (∃ x y, "Action failed: " ++ (get n).error.code ++ " - " ++
          (get n).error.message = x ++ ((get n).error.code ++ y)) ∧
      (∃ x, "Action failed: " ++ (get n).error.code ++ " - " ++
          (get n).error.message = x ++ (get n).error.message) := by
  intro fuel hf
  refine ⟨?_, ⟨"Action failed: ", " - " ++ (get n).error.message,
      by rw [String.append_assoc, String.append_assoc]⟩,
    ⟨"Action failed: " ++ (get n).error.code ++ " - ", rfl⟩⟩
  obtain ⟨f, rfl⟩ : ∃ f, fuel = n + (f + 1) := ⟨fuel - n - 1, by omega⟩
  have ha := pollAux_advance get elapsed timeoutMs id n 0 (f + 1)
    (fun m hm => ⟨by simpa using hrun m hm, by simpa using hbefore m hm⟩)
  have hgoal : poll get elapsed timeoutMs id (n + (f + 1)) =
      pollAux get elapsed timeoutMs id (0 + n) (f + 1) := ha
  rw [hgoal]
  simp [pollAux, herr]

/-- Witness for C10: one "running" record within the timeout, then a
record with `status = "error"`, `code = "rate_limit"`,
`message = "boom"`. -/
theorem poll_error_carries_code_and_message_witness :
    poll (fun k => if k = 0
        then ⟨9, "attach_volume", ActionStatus.running, 10, "t0", none, [],
          ⟨"", ""⟩⟩
        else ⟨9, "attach_volume", ActionStatus.error, 10, "t0", some "t1",
          [], ⟨"rate_limit", "boom"⟩⟩)
      (fun _ => 0) 250 9 2 =
      some (PollOutcome.actionError
        ⟨9, "attach_volume", ActionStatus.error, 10, "t0", some "t1", [],
          ⟨"rate_limit", "boom"⟩⟩
        "Action failed: rate_limit - boom") := by
  have h := poll_error_carries_code_and_message
    (fun k => if k = 0
      then ⟨9, "attach_volume", ActionStatus.running, 10, "t0", none, [],
        ⟨"", ""⟩⟩
      else ⟨9, "attach_volume", ActionStatus.error, 10, "t0", some "t1",
        [], ⟨"rate_limit", "boom"⟩⟩)
    (fun _ => 0) 250 9 1
    (fun m hm => by interval_cases m; rfl)
    (fun m hm => by show (0 : Nat) ≤ 250; decide)
    rfl 2 (by decide)
  simpa using h.1

end Hetzner
